import Mathlib

/-!
Shallow embedding of the node-discovery and fleet-state core of the
`bitte-cli` repository (`src/lib/src/types.rs`), together with proofs of the
specification claims about it.

Conventions of the embedding:
* Rust `Result`/propagated errors (`?`) are modelled with `Except String`;
  `panic!`-like failures (`unwrap`, `expect`) are modelled with `Option` or
  with an `Except` error, as noted at each definition.
* `SystemTime` is modelled as a `Nat` (seconds); `SystemTime::duration_since
  earlier` succeeds exactly when `earlier ≤ self`.
* Machine integers that matter (`u32` in the allocation index) are modelled
  as `Nat` with the explicit bound `< 2 ^ 32` where Rust's `parse::<u32>`
  enforces it.
* Network and file-system collaborators (the Nomad HTTP client, the
  terraform state backend, EC2, the cache file) are passed in as explicit
  outcome values; the concurrency fan-out/fan-in of `tokio::spawn`/`await`
  is modelled by sequential use of those outcomes in await order.
-/

/-- Rust `std::net::IpAddr`, modelled for the `V4` variant (the code
constructs only parsed addresses and the `0.0.0.0` default; the claims and
all data in this repository use IPv4 addresses). -/
inductive IpAddr where
  | v4 (a b c d : Nat)
deriving DecidableEq

/-- Numeric value of a decimal digit character (used by the integer parsers
below; `'0'.toNat = 48`). -/
def digitVal (c : Char) : Nat := c.toNat - 48

/-- Drop one leading `+` sign if present (Rust unsigned-integer parsing
accepts it). -/
def strip_plus : List Char → List Char
  | '+' :: rest => rest
  | cs => cs

/-- Rust `str::parse::<u32>`: optional leading `+`, at least one decimal
digit, value below `2 ^ 32` (overflow is a parse error). Modelled on the
character list of the string. -/
def parse_u32_chars (cs0 : List Char) : Option Nat :=
  let cs := strip_plus cs0
  if cs = [] then none
  else if cs.all Char.isDigit then
    let n := cs.foldl (fun acc c => acc * 10 + digitVal c) 0
    if n < 4294967296 then some n else none
  else none

/-- One octet of an IPv4 address as parsed by Rust `std`: decimal digits
only, no redundant leading zero, value at most 255. -/
def parse_octet (cs : List Char) : Option Nat :=
  if cs ≠ [] ∧ cs.all Char.isDigit ∧ (cs.length = 1 ∨ cs.head? ≠ some '0') then
    let n := cs.foldl (fun acc c => acc * 10 + digitVal c) 0
    if n ≤ 255 then some n else none
  else none

/-- Split a character list on `.` (the groups between the dots, dots
removed; an empty list gives one empty group). -/
def split_on_dot : List Char → List (List Char)
  | [] => [[]]
  | c :: rest =>
    match split_on_dot rest with
    | [] => [[]]
    | g :: gs => if c = '.' then [] :: g :: gs else (c :: g) :: gs

/-- Rust `needle.parse::<IpAddr>()` for dotted-quad IPv4 input: four
octets separated by `.`. Any other shape (including UUID strings and
names) fails. -/
def IpAddr.parse (s : String) : Option IpAddr :=
  match split_on_dot s.data with
  | [a, b, c, d] =>
    match parse_octet a, parse_octet b, parse_octet c, parse_octet d with
    | some a, some b, some c, some d => some (IpAddr.v4 a b c d)
    | _, _, _, _ => none
  | _ => none

/-- Rust `IpAddr` `Display`/`to_string` for the `V4` variant. -/
def IpAddr.render : IpAddr → String
  | .v4 a b c d =>
    Nat.repr a ++ "." ++ Nat.repr b ++ "." ++ Nat.repr c ++ "." ++ Nat.repr d

/-- `uuid::Uuid`, modelled by its canonical hyphenated lowercase string
(the only observations the code makes are equality and
`to_hyphenated().to_string()`, and the hyphenated form is a bijective
rendering of the 128-bit value). -/
structure Uuid where
  hyphenated : String
deriving DecidableEq

/-- `Uuid::default()`: the nil UUID. -/
def Uuid.nil : Uuid := ⟨"00000000-0000-0000-0000-000000000000"⟩

/-- `AllocIndex` from `types.rs`: a `serde(untagged)` union of a `u32` and a
string (`Str` models the Rust `String` variant). -/
inductive AllocIndex where
  | Int (i : Nat)
  | Str (s : String)
deriving DecidableEq

/-- `AllocIndex::get`: the integer when in the `Int` variant, `None` for the
string variant. -/
def AllocIndex.get : AllocIndex → Option Nat
  | .Int i => some i
  | .Str _ => none

/-- Maximal run of decimal digits at the end of `cs`. -/
def trailing_digit_run (cs : List Char) : List Char :=
  (cs.reverse.takeWhile Char.isDigit).reverse

/-- The `pull_index` deserializer from `types.rs` (lines 875-892), applied to
the value produced by the untagged `AllocIndex` deserialization.

The Rust body, for the string variant, runs
`Regex::new("[0-9]*\\]$").unwrap().find(&s).unwrap()`; the sole candidate
matches of `[0-9]*\]$` are suffixes of `s` consisting of a digit run
followed by a final `]`, so a match exists iff `s` ends with `]`, and the
leftmost match is the maximal digit run preceding that final `]` (plus the
bracket). The code then slices the bracket off and runs
`parse::<u32>().unwrap()`. Both `unwrap` panics (no regex match; failed or
overflowing integer parse) are modelled as `none`. -/
def pull_index : AllocIndex → Option AllocIndex
  | .Int i => some (.Int i)
  | .Str s =>
    match s.data.getLast? with
    | some ']' =>
      match parse_u32_chars (trailing_digit_run s.data.dropLast) with
      | some n => some (.Int n)
      | none => none
    | _ => none

/-- `NomadAlloc` from `types.rs` (`ns` models the Rust field `namespace`,
which is a reserved word here). -/
structure NomadAlloc where
  id : Uuid
  job_id : String
  ns : String
  task_group : String
  status : String
  index : AllocIndex
  node_id : Uuid
deriving DecidableEq

/-- `NomadClient` from `types.rs`. -/
structure NomadClient where
  id : Uuid
  allocs : Option (List NomadAlloc)
  address : Option IpAddr
deriving DecidableEq

/-- `NomadClient::default()` (derived `Default`): nil id, `None` fields. -/
def NomadClient.default : NomadClient :=
  { id := Uuid.nil, allocs := none, address := none }

/-- `BitteNode` from `types.rs`. -/
structure BitteNode where
  id : String
  name : String
  priv_ip : IpAddr
  pub_ip : IpAddr
  nixos : String
  nomad_client : Option NomadClient
deriving DecidableEq

/-- `TerraformStateInstance` from `types.rs` (the declared-state record for
one instance; the hyphenated Rust/serde field names are written with
underscores). -/
structure TerraformStateInstance where
  flake_attr : String
  instance_type : String
  name : String
  private_ip : String
  public_ip : String
  tags : List (String × String)
  uid : String
deriving DecidableEq

/-- `TerraformStateAsg` from `types.rs`. -/
structure TerraformStateAsg where
  arn : String
  count : Nat
  flake_attr : String
  instance_type : String
  region : String
  uid : String
deriving DecidableEq

/-- `TerraformStateClient` from `types.rs`. -/
structure TerraformStateClient where
  arn : String
deriving DecidableEq

/-- `TerraformStateRoles` from `types.rs`. -/
structure TerraformStateRoles where
  client : TerraformStateClient
  core : TerraformStateClient
deriving DecidableEq

/-- `TerraformStateValue` from `types.rs`. The Rust `HashMap` fields are
modelled as association lists; `instances.values()` iteration is the list
order (`HashMap` iteration order is arbitrary, and no claim depends on
it). -/
structure TerraformStateValue where
  asgs : List (String × TerraformStateAsg)
  flake : String
  instances : List (String × TerraformStateInstance)
  kms : String
  name : String
  nix : String
  region : String
  roles : TerraformStateRoles
  s3_bucket : String
  s3_cache : String
deriving DecidableEq

/-- An EC2 tag (`rusoto_ec2::Tag`): optional key and value. -/
structure Tag where
  key : Option String
  value : Option String
deriving DecidableEq

/-- `Tag::default()`. -/
def Tag.default : Tag := { key := none, value := none }

/-- The fields of `rusoto_ec2::Instance` the conversion reads. -/
structure AwsInstance where
  instance_id : Option String
  private_ip_address : Option String
  public_ip_address : Option String
  tags : Option (List Tag)
deriving DecidableEq

/-- Rust `Iterator::find` on a consumed iterator: the first element
satisfying `p` together with the rest of the iterator (the elements after
that match), since `BitteNode::from` runs two consecutive `find`s on one
`into_iter()`. -/
def find_consume (p : Tag → Bool) : List Tag → Option Tag × List Tag
  | [] => (none, [])
  | t :: ts => if p t then (some t, ts) else find_consume p ts

/-- The tag-key test `tag.key.as_ref().unwrap_or(&"".to_owned()) == k`. -/
def tag_key_eq (k : String) (t : Tag) : Bool := (t.key.getD "") == k

/-- `impl From<Instance> for BitteNode` (`types.rs` lines 681-708).
`instance.tags.unwrap()` panics when `tags` is `None`; that panic is
modelled as `none`. The `"Name"` tag is searched only in the part of the
tag iterator left after the `"UID"` search, exactly as the Rust iterator
is consumed. Unparseable or missing addresses fall back to `0.0.0.0`. -/
def BitteNode.from_instance (inst : AwsInstance) : Option BitteNode :=
  match inst.tags with
  | none => none
  | some tags0 =>
    let r1 := find_consume (tag_key_eq "UID") tags0
    let nixos := ((r1.1.getD Tag.default).value.getD "")
    let r2 := find_consume (tag_key_eq "Name") r1.2
    let name := ((r2.1.getD Tag.default).value.getD "")
    let no_ip := IpAddr.v4 0 0 0 0
    some
      { id := inst.instance_id.getD ""
        name := name
        priv_ip := (IpAddr.parse (inst.private_ip_address.getD "")).getD no_ip
        pub_ip := (IpAddr.parse (inst.public_ip_address.getD "")).getD no_ip
        nomad_client := none
        nixos := nixos }

/-- The per-instance closure of `BitteNode::find_nodes` (`types.rs` lines
776-807): attach the first Nomad client whose address equals the node's
private ip, give it the allocations filtered on `alloc.node_id ==
client.id`, then backfill an empty name by a scan of the declared-state
instances on matching private address (each match assigns, so the last
matching instance in iteration order wins). -/
def attach_client (clients : List NomadClient) (allocs : List NomadAlloc)
    (node0 : BitteNode) : BitteNode :=
  { node0 with nomad_client :=
      match clients.find? (fun client => decide (client.address = some node0.priv_ip)) with
      | some c =>
        some { c with
               allocs := some (allocs.filter (fun a => decide (a.node_id = c.id))) }
      | none => none }

/-- The name backfill statement of the closure: when the node name is
empty, scan every declared-state instance and take the name of each one
whose `private-ip` string equals the rendered private address (so the
last match in iteration order wins). -/
def backfill_value (state : TerraformStateValue) (node1 : BitteNode) : String :=
  (state.instances.map Prod.snd).foldl
    (fun n inst => if inst.private_ip = node1.priv_ip.render then inst.name else n)
    node1.name

def backfill_name (state : TerraformStateValue) (node1 : BitteNode) : BitteNode :=
  if node1.name = "" then { node1 with name := backfill_value state node1 }
  else node1

def make_node (clients : List NomadClient) (allocs : List NomadAlloc)
    (state : TerraformStateValue) (node0 : BitteNode) : BitteNode :=
  backfill_name state (attach_client clients allocs node0)

/-- The declared-state selection of `BitteNode::find_nodes` (`types.rs`
lines 755-765): use the `clients` workspace output when its fetch
succeeded, otherwise the `core` output; `expect` panics (modelled as an
error) when both failed. -/
def select_state (tc core : Except String TerraformStateValue) :
    Except String TerraformStateValue :=
  match tc with
  | .ok t => .ok t
  | .error _ =>
    match core with
    | .ok t => .ok t
    | .error _ => .error "failed to fetch clients or core workspaces"

/-- One region's instances turned into nodes; `none` models the
`tags.unwrap()` panic on an instance without tags. -/
def region_nodes (clients : List NomadClient) (allocs : List NomadAlloc)
    (state : TerraformStateValue) (insts : List AwsInstance) :
    Option (List BitteNode) :=
  insts.mapM (fun i => (BitteNode.from_instance i).map (make_node clients allocs state))

/-- `BitteNode::find_nodes` (`types.rs` lines 710-817) for the AWS
provider, as a function of the fetched collaborator outcomes, awaited in
source order: the allocation fetch, the Nomad client fetch, the two
terraform workspace fetches, then each region's `describe_instances`
response (`regions`; the response's reservation nesting is modelled
pre-flattened to the instance list, and the `AWS_ASG_REGIONS` /
`AWS_DEFAULT_REGION` environment reads that only choose which regions are
queried are modelled by the choice of the `regions` list itself). Returns
the node collection and the declared-state `s3_cache` id.

`region_step` is the handling of one awaited region response inside the
loop: propagate the response error, then convert and correlate each
instance (the `tags.unwrap()` panic becoming an error). -/
def region_step (clients : List NomadClient) (allocs : List NomadAlloc)
    (state : TerraformStateValue) (r : Except String (List AwsInstance)) :
    Except String (List BitteNode) := do
  let insts ← r
  match region_nodes clients allocs state insts with
  | some ns => Except.ok ns
  | none => Except.error "instance tags missing"

def BitteNode.find_nodes (regions : List (Except String (List AwsInstance)))
    (alloc_res : Except String (List NomadAlloc))
    (clients_res : Except String (List NomadClient))
    (tc core : Except String TerraformStateValue) :
    Except String (List BitteNode × String) := do
  let allocs ← alloc_res
  let clients ← clients_res
  let state ← select_state tc core
  let lists ← regions.mapM (region_step clients allocs state)
  Except.ok (lists.flatten, state.s3_cache)

/-- The node predicate of `BitteFind::find_needle` (`types.rs` lines
636-651): the needle is compared against the node id, the name, the
hyphenated id of the Nomad client (with `NomadClient::default()`
substituted when no client is attached), and — parsed as an address —
against the private and public addresses. -/
def needle_match (needle : String) (node : BitteNode) : Bool :=
  let ip := IpAddr.parse needle
  node.id == needle || node.name == needle
    || (node.nomad_client.getD NomadClient.default).id.hyphenated == needle
    || decide (some node.priv_ip = ip) || decide (some node.pub_ip = ip)

/-- `BitteFind::find_needle` for `BitteNodes` (`types.rs` lines 632-653):
the first node matching the needle, or the `anyhow` context error naming
the needle when none does. -/
def find_needle (nodes : List BitteNode) (needle : String) :
    Except String BitteNode :=
  match nodes.find? (needle_match needle) with
  | some n => .ok n
  | none => .error (needle ++ " does not match any nodes")

/-- The node predicate of `BitteFind::find_needles` (`types.rs` lines
655-678): membership of the node identifiers in the needle list, and of
the parsed needle list in the node addresses. -/
def needles_match (needles : List String) (node : BitteNode) : Bool :=
  let ips := needles.map IpAddr.parse
  needles.contains node.id || needles.contains node.name
    || needles.contains (node.nomad_client.getD NomadClient.default).id.hyphenated
    || ips.any (fun i => decide (i = some node.priv_ip))
    || ips.any (fun i => decide (i = some node.pub_ip))

/-- `BitteFind::find_needles` for `BitteNodes`: every node matching any
needle, in node order. -/
def find_needles (nodes : List BitteNode) (needles : List String) :
    List BitteNode :=
  nodes.filter (needles_match needles)

/-- `BitteProvider` from `types.rs`. -/
inductive BitteProvider where
  | AWS
deriving DecidableEq

/-- `BITTE_PROVIDER` parsing in `BitteCluster::new`: `enum_utils::FromStr`
matches the variant name, and a failure becomes
`Error::ProviderError`. -/
def parse_provider (s : String) : Except String BitteProvider :=
  if s = "AWS" then .ok .AWS else .error ("no such provider: " ++ s)

/-- `BitteCluster` from `types.rs`. The `nomad_api_client` field (a shared
HTTP handle, `serde(skip)`) is a runtime resource with no observable state
in the claims and is omitted; `ttl` is the expiry `SystemTime` as `Nat`
seconds. -/
structure BitteCluster where
  name : String
  nodes : List BitteNode
  domain : String
  provider : BitteProvider
  s3_cache : String
  ttl : Nat
deriving DecidableEq

/-- The process environment variables read by `BitteCluster::new`
(`BITTE_CLUSTER`, `BITTE_DOMAIN`, `BITTE_PROVIDER`, `NOMAD_TOKEN`);
`none` is an unset variable. -/
structure Env where
  bitte_cluster : Option String
  bitte_domain : Option String
  bitte_provider : Option String
  nomad_token : Option String
deriving DecidableEq

/-- `env::var`: the value, or the propagated `VarError` when unset. -/
def env_var (v : Option String) : Except String String :=
  match v with
  | some s => .ok s
  | none => .error "environment variable not found"

/-- The Nomad token resolution of `BitteCluster::new` (`types.rs` lines
906-922), as a function of the `NOMAD_TOKEN` environment value and the
outcome of the `nomad::nomad_token()` auth collaborator. Rust's
`Result::unwrap_or` evaluates its argument eagerly, so the collaborator
block — obtain a fresh token, `env::set_var("NOMAD_TOKEN", …)` with it —
runs in both cases, and its `?` failure propagates in both cases; only
the token actually used differs. Returns the token used for the API
client together with the final `NOMAD_TOKEN` environment value. -/
def resolve_token (env_token : Option String) (auth : Except String String) :
    Except String (String × Option String) :=
  match env_token with
  | some t =>
    match auth with
    | .error e => .error e
    | .ok fresh => .ok (t, some fresh)
  | none =>
    match auth with
    | .error e => .error e
    | .ok fresh => .ok (fresh, some fresh)

/-- The construction part of `BitteCluster::new` (`types.rs` lines
895-959), before cache persistence: read the environment, resolve the
token, fetch and correlate, and assemble the snapshot with an expiry of
now + 300 seconds. Returns the built cluster and the final `NOMAD_TOKEN`
environment value. -/
def build_cluster (env : Env) (auth : Except String String)
    (regions : List (Except String (List AwsInstance)))
    (alloc_res : Except String (List NomadAlloc))
    (clients_res : Except String (List NomadClient))
    (tc core : Except String TerraformStateValue)
    (now : Nat) : Except String (BitteCluster × Option String) := do
  let name ← env_var env.bitte_cluster
  let domain ← env_var env.bitte_domain
  let provider ← (env_var env.bitte_provider).bind parse_provider
  let tok ← resolve_token env.nomad_token auth
  let (nodes, s3_cache) ← BitteNode.find_nodes regions alloc_res clients_res tc core
  let cluster : BitteCluster :=
    { name := name, domain := domain, provider := provider, nodes := nodes
      s3_cache := s3_cache, ttl := now + 300 }
  Except.ok (cluster, tok.2)

/-- `BitteCluster::new` (`types.rs` lines 895-968) as a function of its
collaborator outcomes: the environment, the auth collaborator, the
fetched inventories (as in `BitteNode.find_nodes`), the current time, and
the two cache-persistence outcomes — whether `File::create(".cache.json")`
succeeded (`.ok()` makes a create failure skip the write), and the
outcome of `serde_json::to_writer` on the created file (note the `?` on
the latter: its error propagates). -/
def BitteCluster.new (env : Env) (auth : Except String String)
    (regions : List (Except String (List AwsInstance)))
    (alloc_res : Except String (List NomadAlloc))
    (clients_res : Except String (List NomadClient))
    (tc core : Except String TerraformStateValue)
    (now : Nat) (create_ok : Bool) (write_res : Except String Unit) :
    Except String (BitteCluster × Option String) :=
  match build_cluster env auth regions alloc_res clients_res tc core now with
  | .error e => .error e
  | .ok built =>
    if create_ok then
      match write_res with
      | .ok _ => Except.ok built
      | .error e => Except.error e
    else
      Except.ok built

/-- The outcome of reading the cache file in `BitteCluster::init`:
the file is absent (or cannot be opened), present but failing
deserialization, or deserialized to a cluster. -/
inductive CacheRead where
  | missing
  | corrupt
  | cached (c : BitteCluster)
deriving DecidableEq

/-- `BitteCluster::init` (`types.rs` lines 970-999) as a function of the
cache read outcome, the current time, and the outcomes of the (up to two)
`BitteCluster::new` calls it can make, in call order. Returns the result
together with the number of rebuild (`BitteCluster::new`) attempts.
`ttl.duration_since(now)` is `Ok` exactly when `now ≤ ttl`. In the
corrupt-cache path the code first rebuilds, then applies the ttl check to
the freshly built cluster, rebuilding once more if it already missed
`now` (`b2`). -/
def BitteCluster.init (cache : CacheRead) (now : Nat)
    (b1 b2 : Except String BitteCluster) :
    Except String BitteCluster × Nat :=
  match cache with
  | .missing => (b1, 1)
  | .corrupt =>
    match b1 with
    | .error e => (.error e, 1)
    | .ok c =>
      if now ≤ c.ttl then (.ok c, 1)
      else (b2, 2)
  | .cached c =>
    if now ≤ c.ttl then (.ok c, 0)
    else (b1, 1)

/-- The identifier union of the resolver claim, on the specification side:
a node matches a needle when the needle equals its id, its name, the
hyphenated id of its attached Nomad client — with the nil UUID standing in
when no client is attached (the `Default` substitution of the code) — or
when the needle parses as an address equal to the private or public
address. -/
def matches_claim (needle : String) (n : BitteNode) : Prop :=
  n.id = needle ∨ n.name = needle
    ∨ (∃ c, n.nomad_client = some c ∧ c.id.hyphenated = needle)
    ∨ (n.nomad_client = none ∧ Uuid.nil.hyphenated = needle)
    ∨ (∃ ip, IpAddr.parse needle = some ip ∧ (n.priv_ip = ip ∨ n.pub_ip = ip))

/-- The decimal numeral of a natural number, little proof-side recursion
(most significant digit first); proved below to agree with `Nat.repr`. -/
def natDigits : Nat → List Char
  | n =>
    if _h : n < 10 then [Nat.digitChar n]
    else natDigits (n / 10) ++ [Nat.digitChar (n % 10)]
  termination_by n => n
  decreasing_by exact Nat.div_lt_self (by omega) (by omega)

/-- The nil UUID in hyphenated form, the needle of the default-client
match. -/
def nil_uuid_str : String := "00000000-0000-0000-0000-000000000000"

/-- A concrete declared-state value for witnesses: one instance named
`core-0` at private address `10.0.0.1`. -/
def wInstance : TerraformStateInstance :=
  { flake_attr := "", instance_type := "", name := "core-0"
    private_ip := "10.0.0.1", public_ip := "", tags := [], uid := "" }

/-- A concrete `TerraformStateValue` for witnesses. -/
def wState : TerraformStateValue :=
  { asgs := [], flake := "", instances := [("core-0", wInstance)], kms := ""
    name := "", nix := "", region := "", roles := ⟨⟨""⟩, ⟨""⟩⟩
    s3_bucket := "", s3_cache := "cache-id" }

/-- A concrete node without an attached Nomad client for witnesses. -/
def wNode : BitteNode :=
  { id := "i-1", name := "machine", priv_ip := IpAddr.v4 10 0 0 1
    pub_ip := IpAddr.v4 1 2 3 4, nixos := "", nomad_client := none }

/-- The concrete witness node with an empty name. -/
def wNodeNoName : BitteNode := { wNode with name := "" }

/-- A concrete Nomad client at `10.0.0.1` for witnesses. -/
def wClient : NomadClient :=
  { id := ⟨"11111111-1111-1111-1111-111111111111"⟩, allocs := none
    address := some (IpAddr.v4 10 0 0 1) }

/-- A concrete allocation on `wClient` for witnesses. -/
def wAlloc : NomadAlloc :=
  { id := ⟨"aaaaaaaa-0000-0000-0000-000000000000"⟩, job_id := "job", ns := "default"
    task_group := "group", status := "running", index := .Int 2
    node_id := ⟨"11111111-1111-1111-1111-111111111111"⟩ }

/-- A concrete allocation on a different client for witnesses. -/
def wAllocOther : NomadAlloc :=
  { wAlloc with node_id := ⟨"22222222-2222-2222-2222-222222222222"⟩ }

/-- A concrete cluster whose expiry is time 5, for the cache claims. -/
def wCluster : BitteCluster :=
  { name := "c", nodes := [], domain := "d", provider := .AWS
    s3_cache := "s", ttl := 5 }

/-- A concrete environment with every variable set, for the build
claims. -/
def wEnv : Env :=
  { bitte_cluster := some "c", bitte_domain := some "d"
    bitte_provider := some "AWS", nomad_token := some "secret" }

/-- The cluster that `BitteCluster.new` builds from `wEnv` and `wState`
with no regions at time 0. -/
def wBuilt : BitteCluster :=
  { name := "c", nodes := [], domain := "d", provider := .AWS
    s3_cache := "cache-id", ttl := 300 }

theorem takeWhile_all_append (p : Char → Bool) (l1 l2 : List Char) (x : Char)
    (h1 : ∀ c ∈ l1, p c = true) (h2 : p x = false) :
    (l1 ++ x :: l2).takeWhile p = l1 := by
  induction l1 with
  | nil => simp [List.takeWhile_cons, h2]
  | cons a t ih =>
    have ha : p a = true := h1 a (by simp)
    simp [List.takeWhile_cons, ha, ih (fun c hc => h1 c (by simp [hc]))]

theorem digitVal_digitChar (n : Nat) (h : n < 10) :
    digitVal (Nat.digitChar n) = n := by
  interval_cases n <;> decide

theorem digitChar_isDigit (n : Nat) (h : n < 10) :
    (Nat.digitChar n).isDigit = true := by
  interval_cases n <;> decide

theorem natDigits_ne_nil (n : Nat) : natDigits n ≠ [] := by
  rw [natDigits]
  split <;> simp

theorem natDigits_all_digits (n : Nat) : ∀ c ∈ natDigits n, c.isDigit = true := by
  induction n using Nat.strong_induction_on with
  | _ n ih =>
    rw [natDigits]
    split
    · intro c hc
      simp at hc
      subst hc
      exact digitChar_isDigit n (by omega)
    · intro c hc
      rw [List.mem_append] at hc
      rcases hc with hc | hc
      · exact ih (n / 10) (Nat.div_lt_self (by omega) (by omega)) c hc
      · simp at hc
        subst hc
        exact digitChar_isDigit (n % 10) (Nat.mod_lt n (by omega))

theorem natDigits_foldl (n : Nat) : ∀ a : Nat,
    (natDigits n).foldl (fun acc c => acc * 10 + digitVal c) a
      = a * 10 ^ (natDigits n).length + n := by
  induction n using Nat.strong_induction_on with
  | _ n ih =>
    intro a
    rw [natDigits]
    split
    · next h =>
      simp [List.foldl, digitVal_digitChar n h]
    · next h =>
      rw [List.foldl_append, ih (n / 10) (Nat.div_lt_self (by omega) (by omega)) a]
      simp only [List.foldl, List.length_append, List.length_singleton]
      rw [digitVal_digitChar (n % 10) (Nat.mod_lt n (by omega))]
      rw [pow_succ, Nat.add_mul, ← Nat.mul_assoc, Nat.add_assoc, Nat.div_add_mod' n 10]

theorem toDigitsCore_eq_natDigits (n : Nat) : ∀ (fuel : Nat) (ds : List Char), n < fuel →
    Nat.toDigitsCore 10 fuel n ds = natDigits n ++ ds := by
  induction n using Nat.strong_induction_on with
  | _ n ih =>
    intro fuel ds hfuel
    match fuel with
    | 0 => omega
    | f + 1 =>
      rw [Nat.toDigitsCore]
      by_cases h10 : n / 10 = 0
      · rw [if_pos h10]
        rw [natDigits]
        rw [dif_pos (by omega : n < 10)]
        rw [Nat.mod_eq_of_lt (by omega : n < 10)]
        rfl
      · rw [if_neg h10]
        have hlt : n / 10 < f := by
          have := Nat.div_lt_self (n := n) (by omega) (by omega : 1 < 10)
          omega
        rw [ih (n / 10) (Nat.div_lt_self (by omega) (by omega)) f _ hlt]
        conv_rhs => rw [natDigits]
        rw [dif_neg (by omega : ¬ n < 10)]
        simp

/-- The decimal rendering used by `Nat.repr` agrees with `natDigits`. -/
theorem repr_data (n : Nat) : (Nat.repr n).data = natDigits n := by
  show (Nat.toDigits 10 n).asString.data = natDigits n
  rw [Nat.toDigits, toDigitsCore_eq_natDigits n (n + 1) [] (by omega)]
  simp [List.asString]

theorem strip_plus_of_digits (cs : List Char) (hne : cs ≠ [])
    (hdig : ∀ c ∈ cs, c.isDigit = true) : strip_plus cs = cs := by
  match cs with
  | [] => exact absurd rfl hne
  | c :: t =>
    have hc : c.isDigit = true := hdig c (by simp)
    have hcp : ¬ c = '+' := by
      intro hEq
      rw [hEq] at hc
      exact absurd hc (by decide)
    unfold strip_plus
    split
    · next heq => injection heq with h1 _; exact absurd h1 hcp
    · rfl

/-- `parse::<u32>` round-trips the decimal numeral of any `u32` value. -/
theorem parse_u32_natDigits (n : Nat) (h : n < 4294967296) :
    parse_u32_chars (natDigits n) = some n := by
  have hne := natDigits_ne_nil n
  have hdigAll := natDigits_all_digits n
  have hdig : (natDigits n).all Char.isDigit = true := by
    rw [List.all_eq_true]; exact hdigAll
  have hfold : (natDigits n).foldl (fun acc c => acc * 10 + digitVal c) 0 = n := by
    have := natDigits_foldl n 0
    simpa using this
  unfold parse_u32_chars
  rw [strip_plus_of_digits (natDigits n) hne hdigAll]
  rw [if_neg hne, if_pos hdig, hfold, if_pos h]

theorem string_data_append (a b : String) : (a ++ b).data = a.data ++ b.data := by
  cases a; cases b; rfl

theorem trailing_digit_run_append (p ds : List Char)
    (hds : ∀ c ∈ ds, c.isDigit = true) :
    trailing_digit_run (p ++ '[' :: ds) = ds := by
  unfold trailing_digit_run
  rw [List.reverse_append, List.reverse_cons, List.append_assoc,
    List.singleton_append,
    takeWhile_all_append Char.isDigit ds.reverse p.reverse '['
      (fun c hc => hds c (List.mem_reverse.mp hc)) (by decide),
    List.reverse_reverse]

/-- C3 (amended): index normalization. A bare integer is returned
unchanged; a string `<prefix>[<N>]` with `N` a non-negative integer below
`2 ^ 32` normalizes to `N` (for `N ≥ 2 ^ 32` the `u32` parse overflows and
normalization fails, see the counterexample); a string with no final `]`,
or whose captured trailing digit run fails `u32` parsing (empty or
overflowing), fails rather than producing a default value. -/
theorem pull_index_spec :
    (∀ i, pull_index (AllocIndex.Int i) = some (AllocIndex.Int i))
  ∧ (∀ (p : String) (N : Nat), N < 4294967296 →
      pull_index (AllocIndex.Str (p ++ "[" ++ Nat.repr N ++ "]"))
        = some (AllocIndex.Int N))
  ∧ (∀ s : String,
      (s.data.getLast? ≠ some ']' ∨
        parse_u32_chars (trailing_digit_run s.data.dropLast) = none) →
      pull_index (AllocIndex.Str s) = none) := by
  refine ⟨fun i => rfl, ?_, ?_⟩
  · intro p N hN
    have hdata : (p ++ "[" ++ Nat.repr N ++ "]").data
        = (p.data ++ '[' :: natDigits N) ++ [']'] := by
      rw [string_data_append, string_data_append, string_data_append, repr_data]
      simp
    simp only [pull_index, hdata, List.getLast?_concat, List.dropLast_concat]
    rw [trailing_digit_run_append p.data (natDigits N) (natDigits_all_digits N)]
    rw [parse_u32_natDigits N hN]
  · intro s hs
    rcases hs with hs | hs
    · simp only [pull_index]
    · simp only [pull_index]
      split
      · rw [hs]
      · rfl

/-- C3 witness: `group[2]` normalizes to the integer 2. -/
theorem pull_index_spec_witness :
    pull_index (AllocIndex.Str ("group" ++ "[" ++ Nat.repr 2 ++ "]"))
      = some (AllocIndex.Int 2) :=
  pull_index_spec.2.1 "group" 2 (by omega)

/-- C3 counterexample: `group[4294967296]` is of the form `<prefix>[<N>]`
with `N = 4294967296` a non-negative integer, yet normalization fails
(the `u32` parse overflows) instead of yielding `N` as the claim
states. -/
theorem pull_index_cex :
    ("group[4294967296]" : String) = "group" ++ "[" ++ Nat.repr 4294967296 ++ "]"
  ∧ pull_index (AllocIndex.Str "group[4294967296]") = none := ⟨rfl, rfl⟩

/-- C9: a successfully normalized allocation index is always in the `Int`
variant, so `AllocIndex::get` on it always returns `Some`. -/
theorem pull_index_always_int (a r : AllocIndex) (h : pull_index a = some r) :
    ∃ n, r = AllocIndex.Int n ∧ AllocIndex.get r = some n := by
  cases a with
  | Int i =>
    simp only [pull_index, Option.some.injEq] at h
    exact ⟨i, h.symm, by rw [← h]; rfl⟩
  | Str s =>
    simp only [pull_index] at h
    split at h
    · split at h
      · next n heq =>
        rw [Option.some.injEq] at h
        exact ⟨n, h.symm, by rw [← h]; rfl⟩
      · cases h
    · cases h

/-- C9 witness: the deserialized index `group[2]` ends in the `Int`
variant and `get` returns `some 2`. -/
theorem pull_index_always_int_witness :
    ∃ n, AllocIndex.Int 2 = AllocIndex.Int n
      ∧ AllocIndex.get (AllocIndex.Int 2) = some n :=
  pull_index_always_int (AllocIndex.Str "group[2]") (AllocIndex.Int 2) rfl

/-- C1 (amended): `BitteCluster::init` returns a cached snapshot unchanged
(with no rebuild attempt) exactly when the cache file deserializes and its
expiry is not earlier than the current time (`duration_since` also
succeeds at equality, so `expiry = now` is served from cache, see the
counterexample); in every other case — file absent, deserialization
failure, or expiry before now — at least one rebuild is attempted and a
failure of the (first) rebuild propagates; any error returned comes from
a rebuild attempt; and a snapshot whose expiry is before now is never
returned without a rebuild attempt. -/
theorem init_spec (cache : CacheRead) (now : Nat) (b1 b2 : Except String BitteCluster) :
    (∀ c, cache = CacheRead.cached c → now ≤ c.ttl →
      BitteCluster.init cache now b1 b2 = (Except.ok c, 0))
  ∧ ((cache = CacheRead.missing ∨ cache = CacheRead.corrupt ∨
      (∃ c, cache = CacheRead.cached c ∧ c.ttl < now)) →
      1 ≤ (BitteCluster.init cache now b1 b2).2
        ∧ ∀ e, b1 = Except.error e →
            (BitteCluster.init cache now b1 b2).1 = Except.error e)
  ∧ (∀ e, (BitteCluster.init cache now b1 b2).1 = Except.error e →
      b1 = Except.error e ∨ b2 = Except.error e)
  ∧ (∀ c, (BitteCluster.init cache now b1 b2).1 = Except.ok c → c.ttl < now →
      1 ≤ (BitteCluster.init cache now b1 b2).2) := by
  refine ⟨?_, ?_, ?_, ?_⟩
  · rintro c rfl hle
    simp [BitteCluster.init, hle]
  · intro hcase
    constructor
    · rcases hcase with rfl | rfl | ⟨c, rfl, hlt⟩
      · simp [BitteCluster.init]
      · cases b1 with
        | error e => simp [BitteCluster.init]
        | ok c => simp only [BitteCluster.init]; split <;> simp
      · simp [BitteCluster.init, Nat.not_le.mpr hlt]
    · rintro e rfl
      rcases hcase with rfl | rfl | ⟨c, rfl, hlt⟩
      · simp [BitteCluster.init]
      · simp [BitteCluster.init]
      · simp [BitteCluster.init, Nat.not_le.mpr hlt]
  · intro e h
    cases cache with
    | missing => exact Or.inl h
    | corrupt =>
      cases b1 with
      | error e1 =>
        simp only [BitteCluster.init] at h
        exact Or.inl (by rw [h])
      | ok c =>
        simp only [BitteCluster.init] at h
        by_cases hle : now ≤ c.ttl
        · rw [if_pos hle] at h
          cases h
        · rw [if_neg hle] at h
          exact Or.inr h
    | cached c =>
      simp only [BitteCluster.init] at h
      by_cases hle : now ≤ c.ttl
      · rw [if_pos hle] at h
        cases h
      · rw [if_neg hle] at h
        exact Or.inl h
  · intro c h hlt
    cases cache with
    | missing => simp [BitteCluster.init]
    | corrupt =>
      cases b1 with
      | error e => simp [BitteCluster.init]
      | ok c1 => simp only [BitteCluster.init]; split <;> simp
    | cached c0 =>
      simp only [BitteCluster.init] at h ⊢
      by_cases hle : now ≤ c0.ttl
      · rw [if_pos hle] at h
        have hc : c0 = c := by
          have h2 : Except.ok (ε := String) c0 = Except.ok c := h
          injection h2
        subst hc
        omega
      · rw [if_neg hle]

/-- C1 witness: a cache deserialized with expiry 5 at time 3 is returned
unchanged with no rebuild attempt, even though both rebuild outcomes
would fail. -/
theorem init_spec_witness :
    BitteCluster.init (CacheRead.cached wCluster) 3
      (Except.error "rebuild failed") (Except.error "rebuild failed")
      = (Except.ok wCluster, 0) :=
  (init_spec (CacheRead.cached wCluster) 3
    (Except.error "rebuild failed") (Except.error "rebuild failed")).1
    wCluster rfl (by decide)

/-- C1 counterexample: at time 5 a cached snapshot with expiry exactly 5 —
an expiry that is not strictly later than the current time — is returned
unchanged with zero rebuild attempts, where the claim requires a rebuild
to be attempted. -/
theorem init_cex :
    wCluster.ttl = 5
  ∧ ¬ 5 < wCluster.ttl
  ∧ BitteCluster.init (CacheRead.cached wCluster) 5
      (Except.error "rebuild failed") (Except.error "rebuild failed")
      = (Except.ok wCluster, 0) :=
  ⟨rfl, by decide, rfl⟩

theorem attach_client_name (clients : List NomadClient) (allocs : List NomadAlloc)
    (node0 : BitteNode) : (attach_client clients allocs node0).name = node0.name := rfl

theorem attach_client_priv_ip (clients : List NomadClient) (allocs : List NomadAlloc)
    (node0 : BitteNode) : (attach_client clients allocs node0).priv_ip = node0.priv_ip := rfl

theorem backfill_name_nomad_client (state : TerraformStateValue) (n : BitteNode) :
    (backfill_name state n).nomad_client = n.nomad_client := by
  unfold backfill_name
  split <;> rfl

/-- C2: join correctness. When some Nomad client's address equals the
node's private address, the built node carries such a client (the first
match in client order), its allocation set being exactly the filter of the
allocation list on `node_id = client.id`; when no client address matches,
the built node carries no client (and the construction still succeeds,
being a total function). -/
theorem join_spec (clients : List NomadClient) (allocs : List NomadAlloc)
    (state : TerraformStateValue) (node : BitteNode) :
    ((∃ c ∈ clients, c.address = some node.priv_ip) →
      ∃ c, c ∈ clients ∧ c.address = some node.priv_ip ∧
        (make_node clients allocs state node).nomad_client =
          some { c with
                 allocs := some (allocs.filter (fun a => decide (a.node_id = c.id))) })
  ∧ ((∀ c ∈ clients, c.address ≠ some node.priv_ip) →
      (make_node clients allocs state node).nomad_client = none) := by
  constructor
  · rintro ⟨c0, hc0, haddr⟩
    have hsome : (clients.find?
        (fun client => decide (client.address = some node.priv_ip))).isSome := by
      rw [List.find?_isSome]
      exact ⟨c0, hc0, by simp [haddr]⟩
    obtain ⟨c, hc⟩ := Option.isSome_iff_exists.mp hsome
    refine ⟨c, List.mem_of_find?_eq_some hc, ?_, ?_⟩
    · have := List.find?_some hc
      simpa using this
    · rw [make_node, backfill_name_nomad_client]
      show (match clients.find?
          (fun client => decide (client.address = some node.priv_ip)) with
        | some c =>
          some { c with
                 allocs := some (allocs.filter (fun a => decide (a.node_id = c.id))) }
        | none => none) = _
      rw [hc]
  · intro hnone
    have hn : clients.find?
        (fun client => decide (client.address = some node.priv_ip)) = none := by
      rw [List.find?_eq_none]
      intro x hx
      simp [hnone x hx]
    rw [make_node, backfill_name_nomad_client]
    show (match clients.find?
        (fun client => decide (client.address = some node.priv_ip)) with
      | some c =>
        some { c with
               allocs := some (allocs.filter (fun a => decide (a.node_id = c.id))) }
      | none => none) = _
    rw [hn]

/-- C2 witness: a node at `10.0.0.1` is joined with the one client at that
address, carrying exactly the allocation whose `node_id` is that client's
id. -/
theorem join_spec_witness :
    ∃ c, c ∈ [wClient] ∧ c.address = some wNode.priv_ip ∧
      (make_node [wClient] [wAlloc, wAllocOther] wState wNode).nomad_client =
        some { c with
               allocs := some ([wAlloc, wAllocOther].filter
                 (fun a => decide (a.node_id = c.id))) } :=
  (join_spec [wClient] [wAlloc, wAllocOther] wState wNode).1
    ⟨wClient, by simp, rfl⟩

theorem foldl_backfill_no_match (r : String) (l : List TerraformStateInstance)
    (a : String) (h : ∀ inst ∈ l, inst.private_ip ≠ r) :
    l.foldl (fun n inst => if inst.private_ip = r then inst.name else n) a = a := by
  induction l generalizing a with
  | nil => rfl
  | cons x t ih =>
    simp only [List.foldl_cons]
    rw [if_neg (h x (by simp))]
    exact ih a (fun inst hi => h inst (by simp [hi]))

theorem foldl_backfill_match (r : String) (l : List TerraformStateInstance)
    (a : String) (h : ∃ inst ∈ l, inst.private_ip = r) :
    ∃ inst ∈ l, inst.private_ip = r ∧
      l.foldl (fun n inst => if inst.private_ip = r then inst.name else n) a
        = inst.name := by
  induction l generalizing a with
  | nil =>
    rcases h with ⟨i, hi, _⟩
    cases hi
  | cons x t ih =>
    by_cases ht : ∃ inst ∈ t, inst.private_ip = r
    · obtain ⟨i, hit, hip, hfold⟩ :=
        ih (if x.private_ip = r then x.name else a) ht
      exact ⟨i, by simp [hit], hip, by simpa only [List.foldl_cons] using hfold⟩
    · rcases h with ⟨i, hi, hip⟩
      rcases List.mem_cons.mp hi with rfl | hit
      · refine ⟨i, by simp, hip, ?_⟩
        simp only [List.foldl_cons]
        rw [if_pos hip]
        exact foldl_backfill_no_match r t i.name
          (fun inst hi2 hc => ht ⟨inst, hi2, hc⟩)
      · exact absurd ⟨i, hit, hip⟩ ht

/-- C5: name backfill. A node built with an empty name whose private
address is the `private-ip` of some declared-state instance ends up with
the name of such a matching instance; a node whose name is non-empty
after the cloud-inventory conversion keeps that name unchanged. -/
theorem backfill_spec (clients : List NomadClient) (allocs : List NomadAlloc)
    (state : TerraformStateValue) (node : BitteNode) :
    (node.name = "" →
      (∃ inst ∈ state.instances.map Prod.snd,
        inst.private_ip = node.priv_ip.render) →
      ∃ inst ∈ state.instances.map Prod.snd,
        inst.private_ip = node.priv_ip.render ∧
        (make_node clients allocs state node).name = inst.name)
  ∧ (node.name ≠ "" → (make_node clients allocs state node).name = node.name) := by
  constructor
  · intro hname hex
    obtain ⟨i, hi, hip, hfold⟩ := foldl_backfill_match (node.priv_ip.render)
      (state.instances.map Prod.snd) node.name hex
    refine ⟨i, hi, hip, ?_⟩
    rw [make_node]
    unfold backfill_name
    rw [if_pos (show (attach_client clients allocs node).name = "" from hname)]
    show backfill_value state (attach_client clients allocs node) = i.name
    unfold backfill_value
    simp only [attach_client_priv_ip, attach_client_name]
    exact hfold
  · intro hname
    rw [make_node]
    unfold backfill_name
    rw [if_neg (show ¬ (attach_client clients allocs node).name = "" from hname)]
    rfl

/-- C5 witness: the nameless witness node at `10.0.0.1` acquires the
declared-state name `core-0`, from the instance declared at that
address. -/
theorem backfill_spec_witness :
    ∃ inst ∈ wState.instances.map Prod.snd,
      inst.private_ip = wNodeNoName.priv_ip.render ∧
      (make_node [] [] wState wNodeNoName).name = inst.name :=
  (backfill_spec [] [] wState wNodeNoName).1 rfl
    ⟨wInstance, by simp [wState], rfl⟩

theorem find_nodes_select (regions : List (Except String (List AwsInstance)))
    (a : Except String (List NomadAlloc)) (c : Except String (List NomadClient))
    (tc core tc2 core2 : Except String TerraformStateValue)
    (h : select_state tc core = select_state tc2 core2) :
    BitteNode.find_nodes regions a c tc core
      = BitteNode.find_nodes regions a c tc2 core2 := by
  unfold BitteNode.find_nodes
  rw [h]

/-- C4: declared-state fallback. When the `clients` workspace fetch
succeeds its value is the selected state; when it fails but `core`
succeeds, the whole snapshot construction behaves exactly as if the
`clients` fetch had returned the `core` value (so it still succeeds,
using it for backfill and for the cache id); when both fail, construction
never succeeds; and on success the returned cache id is the selected
state's `s3_cache`. -/
theorem fallback_spec (regions : List (Except String (List AwsInstance)))
    (a : Except String (List NomadAlloc)) (c : Except String (List NomadClient))
    (tc core : Except String TerraformStateValue) :
    (∀ t, tc = Except.ok t → select_state tc core = Except.ok t)
  ∧ (∀ e t, tc = Except.error e → core = Except.ok t →
      select_state tc core = Except.ok t ∧
      ∀ u, BitteNode.find_nodes regions a c tc core
          = BitteNode.find_nodes regions a c (Except.ok t) u)
  ∧ (∀ e1 e2, tc = Except.error e1 → core = Except.error e2 →
      ∀ v, BitteNode.find_nodes regions a c tc core ≠ Except.ok v)
  ∧ (∀ t ns s3, select_state tc core = Except.ok t →
      BitteNode.find_nodes regions a c tc core = Except.ok (ns, s3) →
      s3 = t.s3_cache) := by
  refine ⟨?_, ?_, ?_, ?_⟩
  · rintro t rfl
    rfl
  · rintro e t rfl rfl
    refine ⟨rfl, fun u => ?_⟩
    exact find_nodes_select regions a c _ _ _ u rfl
  · rintro e1 e2 rfl rfl v hok
    cases a with
    | error ea => exact Except.noConfusion hok
    | ok la =>
      cases c with
      | error ec => exact Except.noConfusion hok
      | ok lc => exact Except.noConfusion hok
  · intro t ns s3 hsel hok
    unfold BitteNode.find_nodes at hok
    rw [hsel] at hok
    cases a with
    | error ea => exact Except.noConfusion hok
    | ok la =>
      cases c with
      | error ec => exact Except.noConfusion hok
      | ok lc =>
        have hok2 : (do
            let lists ← regions.mapM (region_step lc la t)
            Except.ok (lists.flatten, t.s3_cache)) = Except.ok (ns, s3) := hok
        cases hm : regions.mapM (region_step lc la t) with
        | error em =>
          rw [hm] at hok2
          exact Except.noConfusion hok2
        | ok lists =>
          rw [hm] at hok2
          have hp : (lists.flatten, t.s3_cache) = (ns, s3) := by
            injection hok2
          injection hp with h1 h2
          exact h2.symm

/-- C4 witness: with the `clients` fetch failed and `core` fetched, the
snapshot construction equals the construction with the `core` value in
the `clients` position. -/
theorem fallback_spec_witness :
    BitteNode.find_nodes [] (Except.ok []) (Except.ok [])
        (Except.error "boom") (Except.ok wState)
      = BitteNode.find_nodes [] (Except.ok []) (Except.ok [])
        (Except.ok wState) (Except.ok wState) :=
  ((fallback_spec [] (Except.ok []) (Except.ok [])
      (Except.error "boom") (Except.ok wState)).2.1 "boom" wState rfl rfl).2
    (Except.ok wState)

theorem needle_match_iff (needle : String) (n : BitteNode) :
    needle_match needle n = true ↔ matches_claim needle n := by
  unfold needle_match matches_claim
  simp only [Bool.or_eq_true, beq_iff_eq, decide_eq_true_eq]
  constructor
  · rintro ((((h | h) | h) | h) | h)
    · exact Or.inl h
    · exact Or.inr (Or.inl h)
    · cases hc : n.nomad_client with
      | some c =>
        refine Or.inr (Or.inr (Or.inl ⟨c, rfl, ?_⟩))
        rw [hc] at h
        simpa using h
      | none =>
        refine Or.inr (Or.inr (Or.inr (Or.inl ⟨rfl, ?_⟩)))
        rw [hc] at h
        simpa [NomadClient.default] using h
    · exact Or.inr (Or.inr (Or.inr (Or.inr ⟨n.priv_ip, h.symm, Or.inl rfl⟩)))
    · exact Or.inr (Or.inr (Or.inr (Or.inr ⟨n.pub_ip, h.symm, Or.inr rfl⟩)))
  · rintro (h | h | ⟨c, hc, h⟩ | ⟨hc, h⟩ | ⟨ip, hip, hor⟩)
    · exact Or.inl (Or.inl (Or.inl (Or.inl h)))
    · exact Or.inl (Or.inl (Or.inl (Or.inr h)))
    · refine Or.inl (Or.inl (Or.inr ?_))
      rw [hc]
      simpa using h
    · refine Or.inl (Or.inl (Or.inr ?_))
      rw [hc]
      simpa [NomadClient.default] using h
    · rcases hor with h | h
      · refine Or.inl (Or.inr ?_)
        rw [hip, h]
      · refine Or.inr ?_
        rw [hip, h]

theorem find?_first {α : Type} (p : α → Bool) (l : List α) (x : α)
    (h : l.find? p = some x) :
    ∃ l1 l2, l = l1 ++ x :: l2 ∧ (∀ y ∈ l1, p y = false) ∧ p x = true := by
  induction l with
  | nil => cases h
  | cons a t ih =>
    by_cases ha : p a = true
    · rw [List.find?_cons_of_pos _ ha] at h
      injection h with h
      subst h
      exact ⟨[], t, rfl, by simp, ha⟩
    · rw [List.find?_cons_of_neg _ (by simpa using ha)] at h
      obtain ⟨l1, l2, rfl, hl1, hx⟩ := ih h
      refine ⟨a :: l1, l2, rfl, ?_, hx⟩
      intro y hy
      rcases List.mem_cons.mp hy with rfl | hy
      · simpa using ha
      · exact hl1 y hy

/-- C6 (amended): `find_needle` returns the first node, in iteration
order, matching the needle in the union of identifiers {id, name,
orchestrator-client id when a client is present — with the nil UUID
standing in when no client is attached — private address, public
address}, address needles being parsed as addresses before comparison;
when no node matches that union it fails with the NotFound error naming
the needle. (The nil-UUID substitution for absent clients is the
amendment; see the counterexample.) -/
theorem find_needle_spec (nodes : List BitteNode) (needle : String) :
    (∀ n, find_needle nodes needle = Except.ok n →
      matches_claim needle n ∧
      ∃ l1 l2, nodes = l1 ++ n :: l2 ∧ ∀ m ∈ l1, ¬ matches_claim needle m)
  ∧ ((∀ n ∈ nodes, ¬ matches_claim needle n) →
      find_needle nodes needle
        = Except.error (needle ++ " does not match any nodes")) := by
  constructor
  · intro n hok
    unfold find_needle at hok
    cases hf : nodes.find? (needle_match needle) with
    | none =>
      rw [hf] at hok
      cases hok
    | some m =>
      rw [hf] at hok
      injection hok with hok
      subst hok
      obtain ⟨l1, l2, rfl, hl1, hx⟩ := find?_first _ _ _ hf
      refine ⟨(needle_match_iff needle _).mp hx, l1, l2, rfl, ?_⟩
      intro m hm hc
      have hb := (needle_match_iff needle m).mpr hc
      rw [hl1 m hm] at hb
      cases hb
  · intro hnone
    unfold find_needle
    rw [List.find?_eq_none.mpr
      (fun x hx hc => hnone x hx ((needle_match_iff needle x).mp hc))]

/-- C6 witness: the needle `machine` resolves to the witness node by
exact name match, with nothing before it in iteration order. -/
theorem find_needle_spec_witness :
    matches_claim "machine" wNode ∧
    ∃ l1 l2, [wNode] = l1 ++ wNode :: l2 ∧ ∀ m ∈ l1, ¬ matches_claim "machine" m :=
  (find_needle_spec [wNode] "machine").1 wNode rfl

/-- C6 counterexample: on a node without an attached client, the nil-UUID
needle matches none of the identifiers of the claimed union (id and name
differ, no orchestrator client is present, and the needle does not parse
as an address), so the claim requires a NotFound failure — yet
`find_needle` returns the node, through the substituted default client
id. -/
theorem find_needle_cex :
    wNode.nomad_client = none
  ∧ wNode.id ≠ nil_uuid_str
  ∧ wNode.name ≠ nil_uuid_str
  ∧ IpAddr.parse nil_uuid_str = none
  ∧ find_needle [wNode] nil_uuid_str = Except.ok wNode :=
  ⟨rfl, by decide, by decide, by decide, rfl⟩

/-- C10: for the hyphenated nil-UUID needle, every node with no attached
orchestrator client is treated as a match — by the predicate itself, by
`find_needles` (such nodes appear in its result), and by `find_needle`
(which then succeeds) — because an absent client is replaced by
`NomadClient::default()`, whose id is the nil UUID, before the id
comparison. -/
theorem nil_uuid_matches :
    (∀ n : BitteNode, n.nomad_client = none → needle_match nil_uuid_str n = true)
  ∧ (∀ (nodes : List BitteNode) (n : BitteNode), n ∈ nodes → n.nomad_client = none →
      n ∈ find_needles nodes [nil_uuid_str])
  ∧ (∀ nodes : List BitteNode, (∃ n ∈ nodes, n.nomad_client = none) →
      ∃ m, find_needle nodes nil_uuid_str = Except.ok m) := by
  have h1 : ∀ n : BitteNode, n.nomad_client = none →
      needle_match nil_uuid_str n = true := by
    intro n hc
    simp [needle_match, hc, NomadClient.default, Uuid.nil, nil_uuid_str]
  refine ⟨h1, ?_, ?_⟩
  · intro nodes n hn hc
    refine List.mem_filter.mpr ⟨hn, ?_⟩
    simp [needles_match, hc, NomadClient.default, Uuid.nil, nil_uuid_str]
  · rintro nodes ⟨n, hn, hc⟩
    have hsome : (nodes.find? (needle_match nil_uuid_str)).isSome := by
      rw [List.find?_isSome]
      exact ⟨n, hn, h1 n hc⟩
    obtain ⟨m, hm⟩ := Option.isSome_iff_exists.mp hsome
    refine ⟨m, ?_⟩
    unfold find_needle
    rw [hm]

/-- C10 witness: the client-less witness node matches the nil-UUID needle
under all three observations. -/
theorem nil_uuid_matches_witness :
    needle_match nil_uuid_str wNode = true
  ∧ wNode ∈ find_needles [wNode] [nil_uuid_str]
  ∧ ∃ m, find_needle [wNode] nil_uuid_str = Except.ok m :=
  ⟨nil_uuid_matches.1 wNode rfl,
   nil_uuid_matches.2.1 [wNode] wNode (by simp) rfl,
   nil_uuid_matches.2.2 [wNode] ⟨wNode, by simp, rfl⟩⟩

/-- C7 (amended): a failure to create the cache file is non-fatal — the
build behaves exactly as when the persisted write succeeds; but when the
file is created and the serialized write to it fails, the `?` propagates
that error and the build returns it instead of the snapshot. -/
theorem new_cache_write_spec (env : Env) (auth : Except String String)
    (regions : List (Except String (List AwsInstance)))
    (a : Except String (List NomadAlloc)) (c : Except String (List NomadClient))
    (tc core : Except String TerraformStateValue)
    (now : Nat) (w : Except String Unit) :
    (BitteCluster.new env auth regions a c tc core now false w
      = BitteCluster.new env auth regions a c tc core now true (Except.ok ()))
  ∧ (∀ r e, BitteCluster.new env auth regions a c tc core now true (Except.ok ())
        = Except.ok r →
      BitteCluster.new env auth regions a c tc core now true (Except.error e)
        = Except.error e) := by
  constructor
  · unfold BitteCluster.new
    cases build_cluster env auth regions a c tc core now with
    | error e => rfl
    | ok built => rfl
  · intro r e hok
    unfold BitteCluster.new at hok ⊢
    cases hb : build_cluster env auth regions a c tc core now with
    | error e1 =>
      rw [hb] at hok
      exact Except.noConfusion hok
    | ok built => rfl

/-- C7 witness: at the counterexample's inputs, a failing cache write on
a created file turns the otherwise successful build into that error. -/
theorem new_cache_write_spec_witness :
    BitteCluster.new wEnv (Except.ok "fresh") [] (Except.ok []) (Except.ok [])
        (Except.ok wState) (Except.ok wState) 0 true (Except.error "disk full")
      = Except.error "disk full" :=
  (new_cache_write_spec wEnv (Except.ok "fresh") [] (Except.ok []) (Except.ok [])
      (Except.ok wState) (Except.ok wState) 0 (Except.ok ())).2
    (wBuilt, some "fresh") "disk full" rfl

/-- C7 counterexample: with every collaborator succeeding and the cache
file created, the build returns the snapshot when the write succeeds but
returns `disk full` when the write fails — a cache write failure makes
the build fail, where the claim says it never does. -/
theorem new_cache_write_cex :
    BitteCluster.new wEnv (Except.ok "fresh") [] (Except.ok []) (Except.ok [])
        (Except.ok wState) (Except.ok wState) 0 true (Except.ok ())
      = Except.ok (wBuilt, some "fresh")
  ∧ BitteCluster.new wEnv (Except.ok "fresh") [] (Except.ok []) (Except.ok [])
        (Except.ok wState) (Except.ok wState) 0 true (Except.error "disk full")
      = Except.error "disk full" :=
  ⟨rfl, rfl⟩

/-- C8, behavior at the failing input: `Result::unwrap_or` evaluates its
argument eagerly, so the auth collaborator runs even when `NOMAD_TOKEN`
is present — its failure fails the token resolution (and hence the
build), and on success its fresh token overwrites `NOMAD_TOKEN`, while
the token actually used stays the environment one. -/
theorem resolve_token_eager :
    resolve_token (some "secret") (Except.error "vault down")
      = Except.error "vault down"
  ∧ resolve_token (some "secret") (Except.ok "fresh")
      = Except.ok ("secret", some "fresh")
  ∧ BitteCluster.new wEnv (Except.error "vault down") [] (Except.ok [])
      (Except.ok []) (Except.ok wState) (Except.ok wState) 0 true (Except.ok ())
      = Except.error "vault down" :=
  ⟨rfl, rfl, rfl⟩
